import Mathlib

/-!
Shallow embedding of ostree's fsck builtin (src/ostree/ot-builtin-fsck.c).

The external collaborators (the object store, the libsoup HTTP transport,
the structural validators and the checksum primitive of the ostree library)
are modelled as components of an environment record `Env`; the control flow
of the fsck builtin itself (repair_object, load_and_fsck_one_object,
fsck_reachable_objects_from_commits, prepare_repair_remotes,
ostree_builtin_fsck) is translated function by function.  Observable side
effects (g_print, g_printerr, object deletion, remote fetch attempts,
object writes, enabling tombstones) are collected in an event trace.
-/

/-- Object checksums, as the hex strings the C code passes around. -/
abbrev Checksum := String

/-- OstreeObjectType: the four object kinds. -/
inductive ObjectKind
  | commit
  | dirtree
  | dirmeta
  | file
deriving DecidableEq, Repr

/-- OSTREE_OBJECT_TYPE_IS_META: every kind except file is metadata. -/
def ObjectKind.isMeta : ObjectKind → Bool
  | .file => false
  | _ => true

/-- ostree_object_type_to_string. -/
def ostree_object_type_to_string : ObjectKind → String
  | .commit => "commit"
  | .dirtree => "dirtree"
  | .dirmeta => "dirmeta"
  | .file => "file"

/-- A (checksum, kind) pair: the serialized object-name key used by the C code. -/
abbrev ObjectId := Checksum × ObjectKind

/-- The loaded form of a file object: unix mode, content bytes, xattrs. -/
structure FileRecord where
  mode : Nat
  content : List Nat
  xattrs : List (List Nat × List Nat)
deriving DecidableEq, Repr

/-- Result of ostree_repo_load_variant: not-found, another I/O error, or the
serialized metadata payload. -/
inductive MetaLoad
  | notFound
  | ioError
  | loaded (payload : List Nat)
deriving DecidableEq, Repr

/-- Result of ostree_repo_load_file. -/
inductive FileLoad
  | notFound
  | ioError
  | loaded (fr : FileRecord)
deriving DecidableEq, Repr

/-- The content handed to ostree_checksum_file_from_input: metadata payload
bytes, or a file record (input stream, file info, xattrs). -/
inductive LoadedContent
  | meta (payload : List Nat)
  | fileContent (fr : FileRecord)
deriving DecidableEq, Repr

/-- What ostree_repo_load_commit yields: the parent checksum stored in the
commit variant (ostree_commit_get_parent) and whether the repository
bookkeeping marks the commit OSTREE_REPO_COMMIT_STATE_PARTIAL. -/
structure CommitInfo where
  parent : Option Checksum
  statePartial : Bool
deriving DecidableEq, Repr

/-- Outcome of one remote attempt past the URL lookup, in the order the C
code checks them: soup_session_request, soup_request_send,
ostree_content_stream_parse, ostree_raw_file_to_content_stream,
ostree_repo_write_content; or full success. -/
inductive FetchOutcome
  | requestFail
  | sendFail
  | parseFail
  | rawFail
  | writeFail
  | ok
deriving DecidableEq, Repr

/-- Observable actions of the fsck pass. -/
inductive Event
  | printOut (s : String)
  | printErr (s : String)
  | verifyObject (c : Checksum) (k : ObjectKind)
  | remoteAttempt (r : String)
  | deleteObject (c : Checksum) (k : ObjectKind)
  | writeContent (c : Checksum)
  | enableTombstones
deriving DecidableEq, Repr

/-- The command-line options: opt_quiet, opt_delete, opt_add_tombstones,
opt_repair_remotes (a NULL strv is the empty list). -/
structure Opts where
  quiet : Bool
  delete : Bool
  addTombstones : Bool
  repairRemotes : List String
deriving DecidableEq, Repr

/-- The environment: option globals plus the external collaborators (object
store, validators, checksum primitive, remote transport). -/
structure Env where
  opts : Opts
  repo_load_variant : Checksum → ObjectKind → MetaLoad
  repo_load_file : Checksum → FileLoad
  repo_load_commit : Checksum → Option CommitInfo
  repo_list_objects : Option (List ObjectId)
  traverse_commit_union : Checksum → Option (List ObjectId)
  validate_commit : List Nat → Bool
  validate_dirtree : List Nat → Bool
  validate_dirmeta : List Nat → Bool
  validate_file_mode : Nat → Bool
  checksum_file_from_input : LoadedContent → ObjectKind → Option Checksum
  remote_get_url : String → Option String
  remote_list : List String
  remote_fetch : String → FetchOutcome
  cancelled : Bool
  enable_tombstone_ok : Bool
  delete_ok : Checksum → ObjectKind → Bool

/-- Message shared by the per-remote failure diagnostics of repair_object. -/
def repairMsg (t c r tail : String) : String :=
  "repair of " ++ t ++ " " ++ c ++ " from " ++ r ++ " failed, " ++ tail

/-- The for-loop of repair_object over the remote names.  Each iteration:
look up the remote URL, build the request, send it (on failure return FALSE
at once if the run is cancelled), parse the content stream, re-derive the
content representation and write it back; any failure logs and falls
through to the next remote; a successful write returns TRUE.  A failed
write deletes the object when opt_delete is set. -/
def repair_loop (env : Env) (checksum : Checksum) (objtype : ObjectKind) :
    List String → Bool × List Event
  | [] => (false, [])
  | remote :: rest =>
    let t := ostree_object_type_to_string objtype
    match env.remote_get_url remote with
    | none =>
      ((repair_loop env checksum objtype rest).1,
       Event.remoteAttempt remote ::
         Event.printErr (repairMsg t checksum remote "failed to get a URL for remote") ::
         (repair_loop env checksum objtype rest).2)
    | some _ =>
      match env.remote_fetch remote with
      | .requestFail =>
        ((repair_loop env checksum objtype rest).1,
         Event.remoteAttempt remote ::
           Event.printErr (repairMsg t checksum remote "failed to get a request to URL") ::
           (repair_loop env checksum objtype rest).2)
      | .sendFail =>
        if env.cancelled then (false, [Event.remoteAttempt remote])
        else
          ((repair_loop env checksum objtype rest).1,
           Event.remoteAttempt remote ::
             Event.printErr (repairMsg t checksum remote "failed to download the object") ::
             (repair_loop env checksum objtype rest).2)
      | .parseFail =>
        ((repair_loop env checksum objtype rest).1,
         Event.remoteAttempt remote ::
           Event.printErr (repairMsg t checksum remote "failed to parse the content stream") ::
           (repair_loop env checksum objtype rest).2)
      | .rawFail =>
        ((repair_loop env checksum objtype rest).1,
         Event.remoteAttempt remote ::
           Event.printErr (repairMsg t checksum remote "failed to create a content stream") ::
           (repair_loop env checksum objtype rest).2)
      | .writeFail =>
        ((repair_loop env checksum objtype rest).1,
         Event.remoteAttempt remote ::
           ((if env.opts.delete then [Event.deleteObject checksum objtype] else []) ++
             Event.printErr (repairMsg t checksum remote "failed to write object to the repository") ::
             (repair_loop env checksum objtype rest).2))
      | .ok => (true, [Event.remoteAttempt remote, Event.writeContent checksum])

/-- repair_object: a non-file kind fails at once with the not-implemented
diagnostic (the typo is the source's); a file kind runs the remote loop. -/
def repair_object (env : Env) (repair_remotes : List String) (checksum : Checksum)
    (objtype : ObjectKind) : Bool × List Event :=
  if objtype ≠ ObjectKind.file then
    (false,
     [Event.printErr
        ("repair of " ++ ostree_object_type_to_string objtype ++ " " ++ checksum ++
          " failed, not implenented")])
  else repair_loop env checksum objtype repair_remotes

/-- Result of load_and_fsck_one_object: the GError (None means ret = TRUE),
whether *out_found_corruption was set by this call, and the emitted events. -/
structure ObjResult where
  err : Option String
  corrupt : Bool
  events : List Event
deriving DecidableEq, Repr

/-- The load-and-validate phase of load_and_fsck_one_object, before the
missing/checksum handling that both object classes share. -/
inductive LoadPhase
  | missing (evs : List Event)
  | fatal (msg : String)
  | good (content : LoadedContent)
deriving DecidableEq, Repr

/-- Loading and structural validation of one metadata object: not-found is
recorded as missing (with the diagnostic print), any other load error is
fatal, and a loaded payload runs the kind-specific structural validator. -/
def metaLoadPhase (env : Env) (checksum : Checksum) (objtype : ObjectKind)
    (validate : List Nat → Bool) (vmsg : String) : LoadPhase :=
  match env.repo_load_variant checksum objtype with
  | .notFound =>
    .missing
      [Event.printErr
        ("Object missing: " ++ checksum ++ "." ++ ostree_object_type_to_string objtype)]
  | .ioError => .fatal ("Loading metadata object " ++ checksum)
  | .loaded payload =>
    if validate payload then .good (.meta payload)
    else .fatal (vmsg ++ checksum)

/-- The load-and-validate phase for each object kind, following the
IS_META/file split and the per-kind validator dispatch of the C code. -/
def fsckLoadPhase (env : Env) (checksum : Checksum) : ObjectKind → LoadPhase
  | .commit =>
    metaLoadPhase env checksum .commit env.validate_commit "While validating commit metadata "
  | .dirtree =>
    metaLoadPhase env checksum .dirtree env.validate_dirtree "While validating directory tree "
  | .dirmeta =>
    metaLoadPhase env checksum .dirmeta env.validate_dirmeta "While validating directory metadata "
  | .file =>
    match env.repo_load_file checksum with
    | .notFound =>
      .missing
        [Event.printErr
          ("Object missing: " ++ checksum ++ "." ++
            ostree_object_type_to_string ObjectKind.file)]
    | .ioError => .fatal ("Loading file object " ++ checksum)
    | .loaded fr =>
      if env.validate_file_mode fr.mode then .good (.fileContent fr)
      else .fatal ("While validating file " ++ checksum)

/-- The missing-object tail of load_and_fsck_one_object: with no repair
remotes, or when repair fails, set *out_found_corruption; the call itself
still returns TRUE.  No deletion is attempted here. -/
def fsckMissingTail (env : Env) (checksum : Checksum) (objtype : ObjectKind)
    (rr : Option (List String)) (evs : List Event) : ObjResult :=
  match rr with
  | none => ⟨none, true, evs⟩
  | some remotes =>
    ⟨none, !(repair_object env remotes checksum objtype).1,
      evs ++ (repair_object env remotes checksum objtype).2⟩

/-- The checksum tail of load_and_fsck_one_object: recompute the checksum
(failure of the primitive is fatal); on mismatch, with opt_delete or repair
remotes, print the corruption message, best-effort delete, and repair or
set the corruption flag; with neither, the mismatch message becomes a fatal
GError. -/
def fsckChecksumTail (env : Env) (checksum : Checksum) (objtype : ObjectKind)
    (rr : Option (List String)) (content : LoadedContent) : ObjResult :=
  match env.checksum_file_from_input content objtype with
  | none => ⟨some ("checksum input failed for " ++ checksum), false, []⟩
  | some tmp =>
    if checksum ≠ tmp then
      if env.opts.delete || rr.isSome then
        match rr with
        | none =>
          ⟨none, true,
            [Event.printErr
              ("corrupted object " ++ checksum ++ "." ++ ostree_object_type_to_string objtype ++
                "; actual checksum: " ++ tmp),
             Event.deleteObject checksum objtype]⟩
        | some remotes =>
          ⟨none, !(repair_object env remotes checksum objtype).1,
            [Event.printErr
              ("corrupted object " ++ checksum ++ "." ++ ostree_object_type_to_string objtype ++
                "; actual checksum: " ++ tmp),
             Event.deleteObject checksum objtype] ++
              (repair_object env remotes checksum objtype).2⟩
      else
        ⟨some
          ("corrupted object " ++ checksum ++ "." ++ ostree_object_type_to_string objtype ++
            "; actual checksum: " ++ tmp), false, []⟩
    else ⟨none, false, []⟩

/-- load_and_fsck_one_object. -/
def load_and_fsck_one_object (env : Env) (checksum : Checksum) (objtype : ObjectKind)
    (rr : Option (List String)) : ObjResult :=
  match fsckLoadPhase env checksum objtype with
  | .missing evs => fsckMissingTail env checksum objtype rr evs
  | .fatal msg => ⟨some msg, false, []⟩
  | .good content => fsckChecksumTail env checksum objtype rr content

/-- The verification loop of fsck_reachable_objects_from_commits: run
load_and_fsck_one_object on each reachable object, aborting on a fatal
error, accumulating *out_found_corruption, and printing the progress line
"i+1/count objects" whenever mod is zero or i is a multiple of mod
(mod = count / 10 at the call site). -/
def fsckLoop (env : Env) (rr : Option (List String)) (count mod : Nat) :
    Nat → List ObjectId → Bool → Except String Unit × Bool × List Event
  | _, [], fc => (.ok (), fc, [])
  | i, o :: rest, fc =>
    match (load_and_fsck_one_object env o.1 o.2 rr).err with
    | some msg =>
      (.error msg, fc,
        Event.verifyObject o.1 o.2 :: (load_and_fsck_one_object env o.1 o.2 rr).events)
    | none =>
      ((fsckLoop env rr count mod (i + 1) rest
          (fc || (load_and_fsck_one_object env o.1 o.2 rr).corrupt)).1,
       (fsckLoop env rr count mod (i + 1) rest
          (fc || (load_and_fsck_one_object env o.1 o.2 rr).corrupt)).2.1,
       (Event.verifyObject o.1 o.2 :: (load_and_fsck_one_object env o.1 o.2 rr).events) ++
         (if mod = 0 ∨ i % mod = 0 then
            [Event.printOut (toString (i + 1) ++ "/" ++ toString count ++ " objects")]
          else []) ++
         (fsckLoop env rr count mod (i + 1) rest
            (fc || (load_and_fsck_one_object env o.1 o.2 rr).corrupt)).2.2)

/-- Deduplicating accumulation into the reachable-object hash table. -/
def addReachable (acc : List ObjectId) (xs : List ObjectId) : List ObjectId :=
  xs.foldl (fun a x => if x ∈ a then a else a ++ [x]) acc

/-- The first loop of fsck_reachable_objects_from_commits: union the
traversal of every root commit into one deduplicated reachable set; a
traversal failure is fatal. -/
def buildReachable (env : Env) : List Checksum → List ObjectId → Option (List ObjectId)
  | [], acc => some acc
  | c :: rest, acc =>
    match env.traverse_commit_union c with
    | none => none
    | some objs => buildReachable env rest (addReachable acc objs)

/-- fsck_reachable_objects_from_commits. -/
def fsck_reachable_objects_from_commits (env : Env) (commits : List Checksum)
    (rr : Option (List String)) : Except String Unit × Bool × List Event :=
  match buildReachable env commits [] with
  | none => (.error "error traversing commit", false, [])
  | some reachable =>
    fsckLoop env rr reachable.length (reachable.length / 10) 0 reachable false

/-- The census accumulator of ostree_builtin_fsck: root commits (in listing
order), the count of commits whose state carries the PARTIAL flag, and the
staged tombstone requests. -/
structure Census where
  commits : List Checksum
  nPartial : Nat
  tombstones : List Checksum
deriving DecidableEq, Repr

/-- The initial census accumulator. -/
def census0 : Census := ⟨[], 0, []⟩

/-- The tombstone staging test inside the census loop: with
opt_add_tombstones set and the commit declaring a parent, load the parent
commit; not-found means stage a tombstone, any other load failure is
fatal. -/
def tombstoneCheck (env : Env) (info : CommitInfo) : Except String Bool :=
  if env.opts.addTombstones then
    match info.parent with
    | some p =>
      match env.repo_load_variant p ObjectKind.commit with
      | .notFound => .ok true
      | .ioError => .error ("error loading parent commit " ++ p)
      | .loaded _ => .ok false
    | none => .ok false
  else .ok false

/-- One iteration of the commit-census loop of ostree_builtin_fsck: only
commit objects are inspected; a load failure is fatal; tombstone staging
runs first, then the PARTIAL flag routes the commit to the counter or to
the root set. -/
def censusStep (env : Env) (st : Census) (oid : ObjectId) : Except String Census :=
  match oid.2 with
  | ObjectKind.commit =>
    match env.repo_load_commit oid.1 with
    | none => .error ("error loading commit " ++ oid.1)
    | some info =>
      match tombstoneCheck env info with
      | .error e => .error e
      | .ok stage =>
        let st1 := if stage then { st with tombstones := st.tombstones ++ [oid.1] } else st
        if info.statePartial then .ok { st1 with nPartial := st1.nPartial + 1 }
        else .ok { st1 with commits := st1.commits ++ [oid.1] }
  | _ => .ok st

/-- The commit-census loop over the full object listing. -/
def censusLoop (env : Env) : Census → List ObjectId → Except String Census
  | st, [] => .ok st
  | st, o :: rest =>
    match censusStep env st o with
    | .error e => .error e
    | .ok st2 => censusLoop env st2 rest

/-- The tombstone apply loop: print and delete each staged commit object;
a deletion failure is fatal and stops the loop. -/
def applyTombstones (env : Env) : List Checksum → List Event × Option String
  | [] => ([], none)
  | t :: rest =>
    if env.delete_ok t ObjectKind.commit then
      ((Event.printOut ("Adding tombstone for commit " ++ t) ::
          Event.deleteObject t ObjectKind.commit :: (applyTombstones env rest).1),
       (applyTombstones env rest).2)
    else
      ([Event.printOut ("Adding tombstone for commit " ++ t),
        Event.deleteObject t ObjectKind.commit],
       some ("error deleting commit object " ++ t))

/-- Result of the whole fsck run: the C return value, the GError, and the
event trace. -/
structure RunResult where
  ok : Bool
  err : Option String
  events : List Event
deriving DecidableEq, Repr

/-- The final found_corruption check of ostree_builtin_fsck. -/
def corruptionCheck (fc : Bool) (evs : List Event) : RunResult :=
  if fc then ⟨false, some "Repository corruption encountered", evs⟩
  else ⟨true, none, evs⟩

/-- The tail of ostree_builtin_fsck after the verification phase: with
opt_add_tombstones, enable the tombstone feature when any requests are
staged (fatal on failure) and apply them (fatal on a deletion failure);
otherwise report the partial-commit count; finally the corruption check. -/
def finishRun (env : Env) (st : Census) (fc : Bool) (evs : List Event) : RunResult :=
  if env.opts.addTombstones then
    if st.tombstones.isEmpty then corruptionCheck fc evs
    else
      if env.enable_tombstone_ok then
        match (applyTombstones env st.tombstones).2 with
        | some msg =>
          ⟨false, some msg,
            (evs ++ [Event.enableTombstones]) ++ (applyTombstones env st.tombstones).1⟩
        | none =>
          corruptionCheck fc
            ((evs ++ [Event.enableTombstones]) ++ (applyTombstones env st.tombstones).1)
      else ⟨false, some "error enabling tombstone commits", evs ++ [Event.enableTombstones]⟩
  else
    corruptionCheck fc
      (if st.nPartial > 0 then
        evs ++ [Event.printOut (toString st.nPartial ++ " partial commits not verified")]
       else evs)

/-- strv_contains. -/
def strv_contains : List String → String → Bool
  | [], _ => false
  | x :: rest, needle => if x = needle then true else strv_contains rest needle

/-- The validation loop of prepare_repair_remotes over explicitly named
remotes: each must resolve to a URL, the first failure is fatal. -/
def validate_remotes (env : Env) : List String → Except String Unit
  | [] => .ok ()
  | r :: rest =>
    match env.remote_get_url r with
    | none => .error ("error getting URL for remote " ++ r)
    | some _ => validate_remotes env rest

/-- prepare_repair_remotes: an empty option list yields no repair remotes;
a list containing "-" must be a singleton and then takes the store's remote
list (NULL, hence none, when the store has no remotes); otherwise every
named remote is validated.  -/
def prepare_repair_remotes (env : Env) : Except String (Option (List String)) :=
  if env.opts.repairRemotes = [] then .ok none
  else if strv_contains env.opts.repairRemotes "-" then
    if 1 < env.opts.repairRemotes.length then
      .error "Either list repair remotes explicitly or use - (dash) to use all available remotes"
    else .ok (if env.remote_list.isEmpty then none else some env.remote_list)
  else
    match validate_remotes env env.opts.repairRemotes with
    | .error e => .error e
    | .ok _ => .ok (some env.opts.repairRemotes)

/-- ostree_builtin_fsck: option preparation, enumeration, commit census,
verification of the reachable set, tombstone apply or partial report, and
the final corruption check. -/
def ostree_builtin_fsck (env : Env) : RunResult :=
  match prepare_repair_remotes env with
  | .error e => ⟨false, some e, []⟩
  | .ok rr =>
    match env.repo_list_objects with
    | none =>
      ⟨false, some "error listing repository objects",
        if env.opts.quiet then [] else [Event.printOut "Enumerating objects..."]⟩
    | some objects =>
      match censusLoop env census0 objects with
      | .error e =>
        ⟨false, some e,
          if env.opts.quiet then [] else [Event.printOut "Enumerating objects..."]⟩
      | .ok st =>
        match (fsck_reachable_objects_from_commits env st.commits rr).1 with
        | .error e =>
          ⟨false, some e,
            (if env.opts.quiet then [] else
              [Event.printOut "Enumerating objects...",
               Event.printOut
                 ("Verifying content integrity of " ++ toString st.commits.length ++
                   " commit objects...")]) ++
              (fsck_reachable_objects_from_commits env st.commits rr).2.2⟩
        | .ok _ =>
          finishRun env st (fsck_reachable_objects_from_commits env st.commits rr).2.1
            ((if env.opts.quiet then [] else
              [Event.printOut "Enumerating objects...",
               Event.printOut
                 ("Verifying content integrity of " ++ toString st.commits.length ++
                   " commit objects...")]) ++
              (fsck_reachable_objects_from_commits env st.commits rr).2.2)

/-- The remotes attempted by a repair call, read off the event trace. -/
def attemptedRemotes (evs : List Event) : List String :=
  evs.filterMap fun e =>
    match e with
    | Event.remoteAttempt r => some r
    | _ => none

/-- A remote succeeds when its URL resolves and the whole
request/send/parse/write chain goes through. -/
def remoteSucceeds (env : Env) (r : String) : Bool :=
  (env.remote_get_url r).isSome && decide (env.remote_fetch r = FetchOutcome.ok)

/-- A commit-kind listing entry whose repository state is PARTIAL. -/
def isPartialEntry (env : Env) (o : ObjectId) : Bool :=
  match o.2, env.repo_load_commit o.1 with
  | ObjectKind.commit, some info => info.statePartial
  | _, _ => false

/-- Marker for the event the verification loop emits per processed object. -/
def isVerifyEvent : Event → Bool
  | .verifyObject _ _ => true
  | _ => false

theorem metaLoadPhase_missing_evs {env : Env} {c : Checksum} {k : ObjectKind}
    {validate : List Nat → Bool} {vmsg : String} {evs : List Event}
    (h : metaLoadPhase env c k validate vmsg = .missing evs) :
    evs = [Event.printErr ("Object missing: " ++ c ++ "." ++ ostree_object_type_to_string k)] := by
  cases hl : env.repo_load_variant c k with
  | notFound =>
    simp only [metaLoadPhase, hl, LoadPhase.missing.injEq] at h
    exact h.symm
  | ioError => simp [metaLoadPhase, hl] at h
  | loaded payload =>
    simp only [metaLoadPhase, hl] at h
    split at h <;> simp at h

theorem fsckLoadPhase_missing_evs {env : Env} {c : Checksum} {k : ObjectKind} {evs : List Event}
    (h : fsckLoadPhase env c k = .missing evs) :
    evs = [Event.printErr ("Object missing: " ++ c ++ "." ++ ostree_object_type_to_string k)] := by
  cases k with
  | commit => exact metaLoadPhase_missing_evs h
  | dirtree => exact metaLoadPhase_missing_evs h
  | dirmeta => exact metaLoadPhase_missing_evs h
  | file =>
    cases hl : env.repo_load_file c with
    | notFound =>
      simp only [fsckLoadPhase, hl, LoadPhase.missing.injEq] at h
      exact h.symm
    | ioError => simp [fsckLoadPhase, hl] at h
    | loaded fr =>
      simp only [fsckLoadPhase, hl] at h
      split at h <;> simp at h

theorem repair_loop_noverify (env : Env) (c : Checksum) (k : ObjectKind) :
    ∀ rs, ∀ e ∈ (repair_loop env c k rs).2, isVerifyEvent e = false := by
  intro rs
  induction rs with
  | nil => intro e he; simp [repair_loop] at he
  | cons r rest ih =>
    intro e he
    cases hu : env.remote_get_url r with
    | none =>
      simp only [repair_loop, hu, List.mem_cons] at he
      rcases he with rfl | rfl | he3
      · rfl
      · rfl
      · exact ih e he3
    | some u =>
      cases hf : env.remote_fetch r with
      | requestFail =>
        simp only [repair_loop, hu, hf, List.mem_cons] at he
        rcases he with rfl | rfl | he3
        · rfl
        · rfl
        · exact ih e he3
      | sendFail =>
        simp only [repair_loop, hu, hf] at he
        by_cases hcanc : env.cancelled = true
        · simp only [hcanc, if_true, List.mem_cons, List.not_mem_nil, or_false] at he
          subst he; rfl
        · simp only [Bool.not_eq_true] at hcanc
          simp only [hcanc, Bool.false_eq_true, if_false, List.mem_cons] at he
          rcases he with rfl | rfl | he3
          · rfl
          · rfl
          · exact ih e he3
      | parseFail =>
        simp only [repair_loop, hu, hf, List.mem_cons] at he
        rcases he with rfl | rfl | he3
        · rfl
        · rfl
        · exact ih e he3
      | rawFail =>
        simp only [repair_loop, hu, hf, List.mem_cons] at he
        rcases he with rfl | rfl | he3
        · rfl
        · rfl
        · exact ih e he3
      | writeFail =>
        simp only [repair_loop, hu, hf, List.mem_cons, List.mem_append] at he
        rcases he with rfl | he2
        · rfl
        rcases he2 with hdel | he3
        · by_cases hd : env.opts.delete = true
          · simp only [hd, if_true, List.mem_cons, List.not_mem_nil, or_false] at hdel
            subst hdel; rfl
          · simp only [Bool.not_eq_true] at hd
            simp only [hd, Bool.false_eq_true, if_false, List.not_mem_nil] at hdel
        rcases he3 with rfl | he4
        · rfl
        · exact ih e he4
      | ok =>
        simp only [repair_loop, hu, hf, List.mem_cons, List.not_mem_nil, or_false] at he
        rcases he with rfl | rfl <;> rfl

theorem repair_object_noverify (env : Env) (rs : List String) (c : Checksum) (k : ObjectKind) :
    ∀ e ∈ (repair_object env rs c k).2, isVerifyEvent e = false := by
  intro e he
  unfold repair_object at he
  by_cases hk : k ≠ ObjectKind.file
  · rw [if_pos hk] at he
    simp only [List.mem_cons, List.not_mem_nil, or_false] at he
    subst he; rfl
  · rw [if_neg hk] at he
    exact repair_loop_noverify env c k rs e he

theorem load_and_fsck_noverify (env : Env) (c : Checksum) (k : ObjectKind)
    (rr : Option (List String)) :
    ∀ e ∈ (load_and_fsck_one_object env c k rr).events, isVerifyEvent e = false := by
  intro e he
  cases hp : fsckLoadPhase env c k with
  | missing evs =>
    simp only [load_and_fsck_one_object, hp] at he
    have hevs := fsckLoadPhase_missing_evs hp
    subst hevs
    cases rr with
    | none =>
      simp only [fsckMissingTail, List.mem_cons, List.not_mem_nil, or_false] at he
      subst he; rfl
    | some remotes =>
      simp only [fsckMissingTail, List.mem_append, List.mem_cons, List.not_mem_nil,
        or_false] at he
      rcases he with rfl | he2
      · rfl
      · exact repair_object_noverify env remotes c k e he2
  | fatal msg => simp [load_and_fsck_one_object, hp] at he
  | good content =>
    simp only [load_and_fsck_one_object, hp] at he
    cases hcs : env.checksum_file_from_input content k with
    | none => simp [fsckChecksumTail, hcs] at he
    | some tmp =>
      simp only [fsckChecksumTail, hcs] at he
      by_cases hne : c ≠ tmp
      · rw [if_pos hne] at he
        by_cases hrem : (env.opts.delete || rr.isSome) = true
        · rw [if_pos hrem] at he
          cases rr with
          | none =>
            simp only [List.mem_cons, List.not_mem_nil, or_false] at he
            rcases he with rfl | rfl <;> rfl
          | some remotes =>
            simp only [List.mem_append, List.mem_cons, List.not_mem_nil, or_false] at he
            rcases he with (rfl | rfl) | he2
            · rfl
            · rfl
            · exact repair_object_noverify env remotes c k e he2
        · rw [if_neg hrem] at he; simp at he
      · rw [if_neg hne] at he; simp at he

theorem fsckLoop_verify_mem (env : Env) (rr : Option (List String)) (count m : Nat) :
    ∀ (l : List ObjectId) (i : Nat) (fc : Bool) (a : Checksum) (k : ObjectKind),
      Event.verifyObject a k ∈ (fsckLoop env rr count m i l fc).2.2 → (a, k) ∈ l := by
  intro l
  induction l with
  | nil => intro i fc a k h; simp [fsckLoop] at h
  | cons o rest ih =>
    intro i fc a k h
    obtain ⟨oc, okind⟩ := o
    cases he : (load_and_fsck_one_object env oc okind rr).err with
    | some msg =>
      simp only [fsckLoop, he, List.mem_cons] at h
      rcases h with heq | h2
      · simp only [Event.verifyObject.injEq] at heq
        simp [heq.1, heq.2]
      · have := load_and_fsck_noverify env oc okind rr _ h2
        simp [isVerifyEvent] at this
    | none =>
      simp only [fsckLoop, he, List.mem_append, List.mem_cons] at h
      rcases h with ((heq | h2) | h3) | h4
      · simp only [Event.verifyObject.injEq] at heq
        simp [heq.1, heq.2]
      · have := load_and_fsck_noverify env oc okind rr _ h2
        simp [isVerifyEvent] at this
      · by_cases hm : m = 0 ∨ i % m = 0
        · simp only [if_pos hm, List.mem_cons, List.not_mem_nil, or_false] at h3
          cases h3
        · simp only [if_neg hm, List.not_mem_nil] at h3
      · exact List.mem_cons_of_mem _ (ih (i + 1) _ a k h4)

theorem mem_addReachable (x : ObjectId) :
    ∀ (xs acc : List ObjectId), x ∈ addReachable acc xs ↔ x ∈ acc ∨ x ∈ xs := by
  intro xs
  induction xs with
  | nil => intro acc; simp [addReachable]
  | cons y ys ih =>
    intro acc
    have h1 : addReachable acc (y :: ys) =
        addReachable (if y ∈ acc then acc else acc ++ [y]) ys := by
      simp [addReachable]
    rw [h1, ih]
    by_cases hy : y ∈ acc
    · rw [if_pos hy]
      simp only [List.mem_cons]
      constructor
      · rintro (h | h)
        · exact Or.inl h
        · exact Or.inr (Or.inr h)
      · rintro (h | rfl | h)
        · exact Or.inl h
        · exact Or.inl hy
        · exact Or.inr h
    · rw [if_neg hy]
      simp only [List.mem_append, List.mem_cons, List.not_mem_nil, or_false]
      tauto

theorem buildReachable_mem (env : Env) :
    ∀ (roots : List Checksum) (acc reach : List ObjectId),
      buildReachable env roots acc = some reach →
      ∀ x ∈ reach,
        x ∈ acc ∨ ∃ r ∈ roots, ∃ l, env.traverse_commit_union r = some l ∧ x ∈ l := by
  intro roots
  induction roots with
  | nil =>
    intro acc reach h x hx
    simp only [buildReachable, Option.some.injEq] at h
    subst h
    exact Or.inl hx
  | cons r rest ih =>
    intro acc reach h x hx
    cases ht : env.traverse_commit_union r with
    | none => simp [buildReachable, ht] at h
    | some objs =>
      simp only [buildReachable, ht] at h
      rcases ih _ _ h x hx with hacc | ⟨r2, hr2, l, hl, hxl⟩
      · rcases (mem_addReachable x objs acc).mp hacc with h1 | h2
        · exact Or.inl h1
        · exact Or.inr ⟨r, List.mem_cons_self r rest, objs, ht, h2⟩
      · exact Or.inr ⟨r2, List.mem_cons_of_mem r hr2, l, hl, hxl⟩

theorem censusLoop_cons {env : Env} {st : Census} {o : ObjectId} {rest : List ObjectId}
    {stF : Census} (h : censusLoop env st (o :: rest) = .ok stF) :
    ∃ st2, censusStep env st o = .ok st2 ∧ censusLoop env st2 rest = .ok stF := by
  cases hs : censusStep env st o with
  | error e => simp [censusLoop, hs] at h
  | ok st2 =>
    refine ⟨st2, rfl, ?_⟩
    simpa only [censusLoop, hs] using h

theorem censusStep_commits {env : Env} {st : Census} {o : ObjectId} {st2 : Census}
    (h : censusStep env st o = .ok st2) :
    ∀ a, a ∈ st2.commits → a ∈ st.commits ∨
      ∃ info, env.repo_load_commit a = some info ∧ info.statePartial = false := by
  intro a ha
  obtain ⟨oc, okind⟩ := o
  cases okind with
  | commit =>
    cases hl : env.repo_load_commit oc with
    | none => simp [censusStep, hl] at h
    | some info =>
      cases htc : tombstoneCheck env info with
      | error e => simp [censusStep, hl, htc] at h
      | ok stage =>
        simp only [censusStep, hl, htc] at h
        by_cases hp : info.statePartial = true
        · rw [if_pos hp] at h
          cases stage with
          | true =>
            simp only [if_true] at h
            injection h with h2
            rw [← h2] at ha
            exact Or.inl ha
          | false =>
            simp only [Bool.false_eq_true, if_false] at h
            injection h with h2
            rw [← h2] at ha
            exact Or.inl ha
        · rw [if_neg hp] at h
          cases stage with
          | true =>
            simp only [if_true] at h
            injection h with h2
            rw [← h2] at ha
            simp only [List.mem_append, List.mem_singleton] at ha
            rcases ha with ha | rfl
            · exact Or.inl ha
            · exact Or.inr ⟨info, hl, Bool.not_eq_true _ ▸ (by simpa using hp)⟩
          | false =>
            simp only [Bool.false_eq_true, if_false] at h
            injection h with h2
            rw [← h2] at ha
            simp only [List.mem_append, List.mem_singleton] at ha
            rcases ha with ha | rfl
            · exact Or.inl ha
            · exact Or.inr ⟨info, hl, by simpa using hp⟩
  | dirtree =>
    simp only [censusStep] at h
    injection h with h2
    rw [← h2] at ha
    exact Or.inl ha
  | dirmeta =>
    simp only [censusStep] at h
    injection h with h2
    rw [← h2] at ha
    exact Or.inl ha
  | file =>
    simp only [censusStep] at h
    injection h with h2
    rw [← h2] at ha
    exact Or.inl ha

theorem censusStep_nPartial {env : Env} {st : Census} {o : ObjectId} {st2 : Census}
    (h : censusStep env st o = .ok st2) :
    st2.nPartial = st.nPartial + (if isPartialEntry env o then 1 else 0) := by
  obtain ⟨oc, okind⟩ := o
  cases okind with
  | commit =>
    cases hl : env.repo_load_commit oc with
    | none => simp [censusStep, hl] at h
    | some info =>
      cases htc : tombstoneCheck env info with
      | error e => simp [censusStep, hl, htc] at h
      | ok stage =>
        simp only [censusStep, hl, htc] at h
        have hpe : isPartialEntry env (oc, ObjectKind.commit) = info.statePartial := by
          simp [isPartialEntry, hl]
        by_cases hp : info.statePartial = true
        · rw [if_pos hp] at h
          injection h with h2
          rw [← h2]
          cases stage <;> simp [hpe, hp]
        · rw [if_neg hp] at h
          injection h with h2
          rw [← h2]
          have hpf : info.statePartial = false := by simpa using hp
          cases stage <;> simp [hpe, hpf]
  | dirtree =>
    simp only [censusStep] at h
    injection h with h2
    rw [← h2]
    simp [isPartialEntry]
  | dirmeta =>
    simp only [censusStep] at h
    injection h with h2
    rw [← h2]
    simp [isPartialEntry]
  | file =>
    simp only [censusStep] at h
    injection h with h2
    rw [← h2]
    simp [isPartialEntry]

theorem censusStep_tombstones {env : Env} {st : Census} {o : ObjectId} {st2 : Census}
    {c p : Checksum} {info : CommitInfo}
    (htomb : env.opts.addTombstones = true)
    (hload : env.repo_load_commit c = some info)
    (hpar : info.parent = some p)
    (hnp : env.repo_load_variant p ObjectKind.commit = MetaLoad.notFound)
    (h : censusStep env st o = .ok st2) :
    st2.tombstones.count c =
      st.tombstones.count c + (if (c, ObjectKind.commit) = o then 1 else 0) := by
  obtain ⟨oc, okind⟩ := o
  cases okind with
  | commit =>
    by_cases hoc : oc = c
    · subst hoc
      have htcv : tombstoneCheck env info = .ok true := by
        simp [tombstoneCheck, htomb, hpar, hnp]
      simp only [censusStep, hload, htcv, if_true] at h
      by_cases hp : info.statePartial = true
      · rw [if_pos hp] at h
        injection h with h2
        rw [← h2]
        simp [List.count_append, List.count_cons, List.count_nil]
      · rw [if_neg hp] at h
        injection h with h2
        rw [← h2]
        simp [List.count_append, List.count_cons, List.count_nil]
    · have hne : ¬((c, ObjectKind.commit) = (oc, ObjectKind.commit)) := by
        simp [Prod.ext_iff]
        intro hcc
        exact hoc hcc.symm
      rw [if_neg hne]
      cases hl : env.repo_load_commit oc with
      | none => simp [censusStep, hl] at h
      | some info2 =>
        cases htc : tombstoneCheck env info2 with
        | error e => simp [censusStep, hl, htc] at h
        | ok stage =>
          simp only [censusStep, hl, htc] at h
          by_cases hp : info2.statePartial = true
          · rw [if_pos hp] at h
            injection h with h2
            rw [← h2]
            cases stage with
            | true =>
              simp only [if_true]
              simp [List.count_append, List.count_cons, List.count_nil, Ne.symm hoc]
            | false => simp
          · rw [if_neg hp] at h
            injection h with h2
            rw [← h2]
            cases stage with
            | true =>
              simp only [if_true]
              simp [List.count_append, List.count_cons, List.count_nil, Ne.symm hoc]
            | false => simp
  | dirtree =>
    simp only [censusStep] at h
    injection h with h2
    rw [← h2]
    simp
  | dirmeta =>
    simp only [censusStep] at h
    injection h with h2
    rw [← h2]
    simp
  | file =>
    simp only [censusStep] at h
    injection h with h2
    rw [← h2]
    simp

theorem censusLoop_commits {env : Env} :
    ∀ (l : List ObjectId) (st stF : Census), censusLoop env st l = .ok stF →
      ∀ a, a ∈ stF.commits → a ∈ st.commits ∨
        ∃ info, env.repo_load_commit a = some info ∧ info.statePartial = false := by
  intro l
  induction l with
  | nil =>
    intro st stF h a ha
    simp only [censusLoop] at h
    injection h with h2
    rw [← h2] at ha
    exact Or.inl ha
  | cons o rest ih =>
    intro st stF h a ha
    obtain ⟨st2, hs, hloop⟩ := censusLoop_cons h
    rcases ih st2 stF hloop a ha with h1 | h2
    · exact censusStep_commits hs a h1
    · exact Or.inr h2

theorem censusLoop_nPartial {env : Env} :
    ∀ (l : List ObjectId) (st stF : Census), censusLoop env st l = .ok stF →
      stF.nPartial = st.nPartial + (l.filter (fun o => isPartialEntry env o)).length := by
  intro l
  induction l with
  | nil =>
    intro st stF h
    simp only [censusLoop] at h
    injection h with h2
    rw [← h2]
    simp
  | cons o rest ih =>
    intro st stF h
    obtain ⟨st2, hs, hloop⟩ := censusLoop_cons h
    have h1 := ih st2 stF hloop
    have h2 := censusStep_nPartial hs
    rw [h1, h2, List.filter_cons]
    by_cases hp : isPartialEntry env o = true
    · simp only [if_pos hp, List.length_cons]
      omega
    · simp only [if_neg hp]
      omega

theorem censusLoop_tombstones {env : Env} {c p : Checksum} {info : CommitInfo}
    (htomb : env.opts.addTombstones = true)
    (hload : env.repo_load_commit c = some info)
    (hpar : info.parent = some p)
    (hnp : env.repo_load_variant p ObjectKind.commit = MetaLoad.notFound) :
    ∀ (l : List ObjectId) (st stF : Census), censusLoop env st l = .ok stF →
      stF.tombstones.count c = st.tombstones.count c + l.count (c, ObjectKind.commit) := by
  intro l
  induction l with
  | nil =>
    intro st stF h
    simp only [censusLoop] at h
    injection h with h2
    rw [← h2]
    simp
  | cons o rest ih =>
    intro st stF h
    obtain ⟨st2, hs, hloop⟩ := censusLoop_cons h
    have h1 := ih st2 stF hloop
    have h2 := censusStep_tombstones htomb hload hpar hnp hs
    rw [h1, h2, List.count_cons]
    by_cases he : (c, ObjectKind.commit) = o
    · subst he
      simp only [if_pos rfl, beq_self_eq_true, if_true]
      omega
    · have hbeq : (o == (c, ObjectKind.commit)) = false :=
        beq_eq_false_iff_ne.mpr fun hh => he hh.symm
      simp only [if_neg he, hbeq, Bool.false_eq_true, if_false]
      omega

theorem applyTombstones_ok {env : Env} :
    ∀ ts, (∀ t ∈ ts, env.delete_ok t ObjectKind.commit = true) →
      (applyTombstones env ts).2 = none ∧
      ∀ t ∈ ts, Event.deleteObject t ObjectKind.commit ∈ (applyTombstones env ts).1 := by
  intro ts
  induction ts with
  | nil => intro hok; simp [applyTombstones]
  | cons t rest ih =>
    intro hok
    have hd := hok t (List.mem_cons_self t rest)
    have ihh := ih fun u hu => hok u (List.mem_cons_of_mem t hu)
    constructor
    · simp only [applyTombstones, hd, if_true]
      exact ihh.1
    · intro u hu
      simp only [applyTombstones, hd, if_true, List.mem_cons]
      rcases List.mem_cons.mp hu with rfl | hu2
      · right; left; rfl
      · right; right; exact ihh.2 u hu2

theorem applyTombstones_fail {env : Env} :
    ∀ (l1 : List Checksum) (t : Checksum) (l2 : List Checksum),
      (∀ u ∈ l1, env.delete_ok u ObjectKind.commit = true) →
      env.delete_ok t ObjectKind.commit = false →
      (applyTombstones env (l1 ++ t :: l2)).2.isSome = true := by
  intro l1
  induction l1 with
  | nil =>
    intro t l2 hok hbad
    simp [applyTombstones, hbad]
  | cons u rest ih =>
    intro t l2 hok hbad
    have hu := hok u (List.mem_cons_self u rest)
    simp only [List.cons_append, applyTombstones, hu, if_true]
    exact ih t l2 (fun v hv => hok v (List.mem_cons_of_mem u hv)) hbad

theorem corruptionCheck_events (fc : Bool) (evs : List Event) :
    (corruptionCheck fc evs).events = evs := by
  unfold corruptionCheck
  split <;> rfl

theorem finishRun_corrupt_fails (env : Env) (st : Census) (evs : List Event) :
    (finishRun env st true evs).ok = false ∧ (finishRun env st true evs).err ≠ none := by
  unfold finishRun
  by_cases ht : env.opts.addTombstones = true
  · rw [if_pos ht]
    by_cases hemp : st.tombstones.isEmpty = true
    · rw [if_pos hemp]
      simp [corruptionCheck]
    · rw [if_neg hemp]
      by_cases hen : env.enable_tombstone_ok = true
      · rw [if_pos hen]
        cases hap : (applyTombstones env st.tombstones).2 with
        | some msg => simp [hap]
        | none => simp [hap, corruptionCheck]
      · rw [if_neg hen]
        simp
  · rw [if_neg ht]
    simp [corruptionCheck]

theorem repair_loop_cont_aux {env : Env} {c : Checksum} {k : ObjectKind} {r : String}
    {rest : List String}
    (hs : remoteSucceeds env r = false)
    (hres : (repair_loop env c k (r :: rest)).1 = (repair_loop env c k rest).1)
    (hatt : attemptedRemotes (repair_loop env c k (r :: rest)).2 =
      r :: attemptedRemotes (repair_loop env c k rest).2)
    (ih : (repair_loop env c k rest).1 = rest.any (remoteSucceeds env) ∧
      attemptedRemotes (repair_loop env c k rest).2 =
        rest.takeWhile (fun x => !(remoteSucceeds env x)) ++
          (rest.dropWhile (fun x => !(remoteSucceeds env x))).take 1) :
    (repair_loop env c k (r :: rest)).1 = (r :: rest).any (remoteSucceeds env) ∧
    attemptedRemotes (repair_loop env c k (r :: rest)).2 =
      (r :: rest).takeWhile (fun x => !(remoteSucceeds env x)) ++
        ((r :: rest).dropWhile (fun x => !(remoteSucceeds env x))).take 1 := by
  constructor
  · rw [hres, ih.1, List.any_cons, hs, Bool.false_or]
  · rw [hatt, ih.2, List.takeWhile_cons, List.dropWhile_cons]
    simp [hs]

theorem repair_loop_spec (env : Env) (c : Checksum) (k : ObjectKind)
    (hcanc : env.cancelled = false) :
    ∀ rs : List String,
      (repair_loop env c k rs).1 = rs.any (remoteSucceeds env) ∧
      attemptedRemotes (repair_loop env c k rs).2 =
        rs.takeWhile (fun x => !(remoteSucceeds env x)) ++
          (rs.dropWhile (fun x => !(remoteSucceeds env x))).take 1 := by
  intro rs
  induction rs with
  | nil => simp [repair_loop, attemptedRemotes]
  | cons r rest ih =>
    cases hu : env.remote_get_url r with
    | none =>
      have hs : remoteSucceeds env r = false := by simp [remoteSucceeds, hu]
      refine repair_loop_cont_aux hs ?_ ?_ ih
      · simp [repair_loop, hu]
      · simp [repair_loop, hu, attemptedRemotes]
    | some u =>
      cases hf : env.remote_fetch r with
      | requestFail =>
        have hs : remoteSucceeds env r = false := by simp [remoteSucceeds, hu, hf]
        refine repair_loop_cont_aux hs ?_ ?_ ih
        · simp [repair_loop, hu, hf]
        · simp [repair_loop, hu, hf, attemptedRemotes]
      | sendFail =>
        have hs : remoteSucceeds env r = false := by simp [remoteSucceeds, hu, hf]
        refine repair_loop_cont_aux hs ?_ ?_ ih
        · simp [repair_loop, hu, hf, hcanc]
        · simp [repair_loop, hu, hf, hcanc, attemptedRemotes]
      | parseFail =>
        have hs : remoteSucceeds env r = false := by simp [remoteSucceeds, hu, hf]
        refine repair_loop_cont_aux hs ?_ ?_ ih
        · simp [repair_loop, hu, hf]
        · simp [repair_loop, hu, hf, attemptedRemotes]
      | rawFail =>
        have hs : remoteSucceeds env r = false := by simp [remoteSucceeds, hu, hf]
        refine repair_loop_cont_aux hs ?_ ?_ ih
        · simp [repair_loop, hu, hf]
        · simp [repair_loop, hu, hf, attemptedRemotes]
      | writeFail =>
        have hs : remoteSucceeds env r = false := by simp [remoteSucceeds, hu, hf]
        refine repair_loop_cont_aux hs ?_ ?_ ih
        · simp [repair_loop, hu, hf]
        · cases hd : env.opts.delete <;>
            simp [repair_loop, hu, hf, hd, attemptedRemotes]
      | ok =>
        have hs : remoteSucceeds env r = true := by simp [remoteSucceeds, hu, hf]
        constructor
        · simp [repair_loop, hu, hf, List.any_cons, hs]
        · simp [repair_loop, hu, hf, attemptedRemotes, List.takeWhile_cons,
            List.dropWhile_cons, hs]

theorem repair_loop_cancelled (env : Env) (c : Checksum) (k : ObjectKind)
    (hcanc : env.cancelled = true) :
    ∀ rs : List String,
      (∀ r ∈ rs, (env.remote_get_url r).isSome = true ∧
        env.remote_fetch r = FetchOutcome.sendFail) →
      (repair_loop env c k rs).1 = false ∧
      attemptedRemotes (repair_loop env c k rs).2 = rs.take 1 := by
  intro rs h
  cases rs with
  | nil => simp [repair_loop, attemptedRemotes]
  | cons r rest =>
    obtain ⟨hu, hf⟩ := h r (List.mem_cons_self r rest)
    obtain ⟨u, hu2⟩ := Option.isSome_iff_exists.mp hu
    constructor
    · simp [repair_loop, hu2, hf, hcanc]
    · simp [repair_loop, hu2, hf, hcanc, attemptedRemotes]

/-- C1: for a reachable object whose recomputed checksum differs from its
id's checksum, with the delete flag unset and no repair remotes configured,
load_and_fsck_one_object fails fatally with the message naming the
checksum, the kind string and the actual recomputed digest, the corruption
flag is not touched, and the verification loop stops at that object,
processing none of the remaining ones. -/
theorem C1_checksum_mismatch_fatal (env : Env) (c t : Checksum) (k : ObjectKind)
    (content : LoadedContent)
    (hgood : fsckLoadPhase env c k = .good content)
    (hsum : env.checksum_file_from_input content k = some t)
    (hne : c ≠ t)
    (hdel : env.opts.delete = false) :
    load_and_fsck_one_object env c k none =
      ⟨some ("corrupted object " ++ c ++ "." ++ ostree_object_type_to_string k ++
        "; actual checksum: " ++ t), false, []⟩ ∧
    ∀ (count m i : Nat) (fc : Bool) (rest : List ObjectId),
      fsckLoop env none count m i ((c, k) :: rest) fc =
        (.error ("corrupted object " ++ c ++ "." ++ ostree_object_type_to_string k ++
          "; actual checksum: " ++ t), fc, [Event.verifyObject c k]) := by
  have h1 : load_and_fsck_one_object env c k none =
      ⟨some ("corrupted object " ++ c ++ "." ++ ostree_object_type_to_string k ++
        "; actual checksum: " ++ t), false, []⟩ := by
    simp only [load_and_fsck_one_object, hgood, fsckChecksumTail, hsum]
    rw [if_pos hne, hdel]
    simp
  refine ⟨h1, ?_⟩
  intro count m i fc rest
  simp [fsckLoop, h1]

/-- Store with one file object aa whose recomputed checksum is bb. -/
def envC1 : Env where
  opts := ⟨false, false, false, []⟩
  repo_load_variant := fun _ _ => MetaLoad.ioError
  repo_load_file := fun cs => if cs = "aa" then FileLoad.loaded ⟨420, [7], []⟩ else FileLoad.ioError
  repo_load_commit := fun _ => none
  repo_list_objects := none
  traverse_commit_union := fun _ => none
  validate_commit := fun _ => true
  validate_dirtree := fun _ => true
  validate_dirmeta := fun _ => true
  validate_file_mode := fun _ => true
  checksum_file_from_input := fun _ _ => some "bb"
  remote_get_url := fun _ => none
  remote_list := []
  remote_fetch := fun _ => FetchOutcome.requestFail
  cancelled := false
  enable_tombstone_ok := true
  delete_ok := fun _ _ => true

theorem C1_checksum_mismatch_fatal_witness :
    load_and_fsck_one_object envC1 "aa" ObjectKind.file none =
      ⟨some "corrupted object aa.file; actual checksum: bb", false, []⟩ ∧
    fsckLoop envC1 none 2 0 0 [("aa", ObjectKind.file), ("zz", ObjectKind.file)] false =
      (.error "corrupted object aa.file; actual checksum: bb", false,
        [Event.verifyObject "aa" ObjectKind.file]) := by
  have h := C1_checksum_mismatch_fatal envC1 "aa" "bb" ObjectKind.file
    (LoadedContent.fileContent ⟨420, [7], []⟩) (by decide) (by decide) (by decide) (by decide)
  exact ⟨h.1, h.2 2 0 0 false [("zz", ObjectKind.file)]⟩

/-- C2: a reachable object whose load fails with not-found, with the delete
flag unset and no repair remotes, is processed non-fatally: the call
returns success with the corruption flag set, the verification loop goes on
to the remaining objects, and a set corruption flag makes the whole run
fail at the end. -/
theorem C2_missing_nonfatal (env : Env) (c : Checksum) (k : ObjectKind) (evs : List Event)
    (hmiss : fsckLoadPhase env c k = .missing evs)
    (hdel : env.opts.delete = false) :
    load_and_fsck_one_object env c k none = ⟨none, true, evs⟩ ∧
    (∀ (count m i : Nat) (fc : Bool) (rest : List ObjectId),
      fsckLoop env none count m i ((c, k) :: rest) fc =
        ((fsckLoop env none count m (i + 1) rest true).1,
         (fsckLoop env none count m (i + 1) rest true).2.1,
         (Event.verifyObject c k :: evs) ++
           (if m = 0 ∨ i % m = 0 then
              [Event.printOut (toString (i + 1) ++ "/" ++ toString count ++ " objects")]
            else []) ++
           (fsckLoop env none count m (i + 1) rest true).2.2)) ∧
    (∀ (st : Census) (evs2 : List Event),
      (finishRun env st true evs2).ok = false ∧ (finishRun env st true evs2).err ≠ none) := by
  have h1 : load_and_fsck_one_object env c k none = ⟨none, true, evs⟩ := by
    simp [load_and_fsck_one_object, hmiss, fsckMissingTail]
  refine ⟨h1, ?_, ?_⟩
  · intro count m i fc rest
    simp [fsckLoop, h1]
  · intro st evs2
    exact finishRun_corrupt_fails env st evs2

/-- Store in which the file object aa is absent. -/
def envC2 : Env := { envC1 with repo_load_file := fun _ => FileLoad.notFound }

theorem C2_missing_nonfatal_witness :
    load_and_fsck_one_object envC2 "aa" ObjectKind.file none =
      ⟨none, true, [Event.printErr "Object missing: aa.file"]⟩ ∧
    (fsckLoop envC2 none 2 0 0 [("aa", ObjectKind.file), ("zz", ObjectKind.file)] false).2.1 =
      (fsckLoop envC2 none 2 0 1 [("zz", ObjectKind.file)] true).2.1 ∧
    (finishRun envC2 census0 true []).ok = false := by
  have h := C2_missing_nonfatal envC2 "aa" ObjectKind.file
    [Event.printErr "Object missing: aa.file"] (by decide) (by decide)
  refine ⟨h.1, ?_, (h.2.2 census0 []).1⟩
  rw [h.2.1 2 0 0 false [("zz", ObjectKind.file)]]

/-- C10: a file object that loads but whose unix mode fails validation is a
fatal error no matter the delete flag and repair remotes: no deletion, no
repair attempt, no corruption flag, and the loop aborts there. -/
theorem C10_invalid_file_mode_fatal (env : Env) (c : Checksum) (fr : FileRecord)
    (rr : Option (List String))
    (hload : env.repo_load_file c = .loaded fr)
    (hmode : env.validate_file_mode fr.mode = false) :
    load_and_fsck_one_object env c ObjectKind.file rr =
      ⟨some ("While validating file " ++ c), false, []⟩ ∧
    ∀ (count m i : Nat) (fc : Bool) (rest : List ObjectId),
      fsckLoop env rr count m i ((c, ObjectKind.file) :: rest) fc =
        (.error ("While validating file " ++ c), fc,
          [Event.verifyObject c ObjectKind.file]) := by
  have hph : fsckLoadPhase env c ObjectKind.file = .fatal ("While validating file " ++ c) := by
    simp [fsckLoadPhase, hload, hmode]
  have h1 : load_and_fsck_one_object env c ObjectKind.file rr =
      ⟨some ("While validating file " ++ c), false, []⟩ := by
    simp [load_and_fsck_one_object, hph]
  refine ⟨h1, ?_⟩
  intro count m i fc rest
  simp [fsckLoop, h1]

/-- Store with one file object aa carrying an invalid mode, with the delete
flag set and a repair remote configured. -/
def envC10 : Env := { envC1 with
  opts := ⟨false, true, false, ["r1"]⟩
  validate_file_mode := fun _ => false }

theorem C10_invalid_file_mode_fatal_witness :
    load_and_fsck_one_object envC10 "aa" ObjectKind.file (some ["r1"]) =
      ⟨some "While validating file aa", false, []⟩ ∧
    fsckLoop envC10 (some ["r1"]) 1 0 0 [("aa", ObjectKind.file)] false =
      (.error "While validating file aa", false,
        [Event.verifyObject "aa" ObjectKind.file]) := by
  have h := C10_invalid_file_mode_fatal envC10 "aa" ⟨420, [7], []⟩ (some ["r1"])
    (by decide) (by decide)
  exact ⟨h.1, h.2 1 0 0 false []⟩

/-- Store where the file object aa is absent, the delete flag is set and
the single repair remote fails at the content-parse step. -/
def envC3 : Env := { envC1 with
  opts := ⟨false, true, false, ["r1"]⟩
  repo_load_file := fun _ => FileLoad.notFound
  remote_get_url := fun _ => some "u"
  remote_fetch := fun _ => FetchOutcome.parseFail }

/-- C3 counterexample: a missing object with the delete flag set and a
repair remote configured (which then fails) is handled without any
deletion attempt, although the claim says the bad object is first deleted
from the store; the corruption flag is still set non-fatally. -/
theorem C3_counterexample :
    (load_and_fsck_one_object envC3 "aa" ObjectKind.file (some ["r1"])).err = none ∧
    (load_and_fsck_one_object envC3 "aa" ObjectKind.file (some ["r1"])).corrupt = true ∧
    envC3.opts.delete = true ∧
    Event.deleteObject "aa" ObjectKind.file ∉
      (load_and_fsck_one_object envC3 "aa" ObjectKind.file (some ["r1"])).events := by
  decide

/-- C3 (amended): on a checksum mismatch with the delete flag set or repair
remotes configured, the object is deleted best-effort and then repaired
when remotes are configured; on a missing object no deletion is attempted
and repair runs exactly when remotes are configured; in both cases the
corruption flag records a missing-or-failed repair and the loop continues
to the next object. -/
theorem C3_remediation (env : Env) (c t : Checksum) (k : ObjectKind)
    (rr : Option (List String)) :
    (∀ content, fsckLoadPhase env c k = .good content →
      env.checksum_file_from_input content k = some t → c ≠ t →
      (env.opts.delete = true ∨ rr.isSome = true) →
      load_and_fsck_one_object env c k rr =
        ⟨none,
         (match rr with
          | none => true
          | some remotes => !(repair_object env remotes c k).1),
         [Event.printErr ("corrupted object " ++ c ++ "." ++ ostree_object_type_to_string k ++
            "; actual checksum: " ++ t), Event.deleteObject c k] ++
           (match rr with
            | none => []
            | some remotes => (repair_object env remotes c k).2)⟩) ∧
    (∀ evs, fsckLoadPhase env c k = .missing evs →
      load_and_fsck_one_object env c k rr =
        ⟨none,
         (match rr with
          | none => true
          | some remotes => !(repair_object env remotes c k).1),
         evs ++
           (match rr with
            | none => []
            | some remotes => (repair_object env remotes c k).2)⟩ ∧
      Event.deleteObject c k ∉ evs) ∧
    (∀ (count m i : Nat) (fc : Bool) (rest : List ObjectId),
      (load_and_fsck_one_object env c k rr).err = none →
      (fsckLoop env rr count m i ((c, k) :: rest) fc).1 =
        (fsckLoop env rr count m (i + 1) rest
          (fc || (load_and_fsck_one_object env c k rr).corrupt)).1) := by
  refine ⟨?_, ?_, ?_⟩
  · intro content hgood hsum hne hopt
    simp only [load_and_fsck_one_object, hgood, fsckChecksumTail, hsum]
    rw [if_pos hne]
    have hcond : (env.opts.delete || rr.isSome) = true := by
      rcases hopt with h | h
      · simp [h]
      · simp [h]
    rw [if_pos hcond]
    cases rr with
    | none => simp
    | some remotes => simp
  · intro evs hmiss
    constructor
    · simp only [load_and_fsck_one_object, hmiss]
      cases rr with
      | none => simp [fsckMissingTail]
      | some remotes => simp [fsckMissingTail]
    · rw [fsckLoadPhase_missing_evs hmiss]
      simp
  · intro count m i fc rest herr
    simp [fsckLoop, herr]

/-- Store with a mismatched file object aa (hashes to bb), a missing file
object mm, the delete flag set and one repair remote failing at parse. -/
def envC3w : Env := { envC1 with
  opts := ⟨false, true, false, ["r1"]⟩
  repo_load_file := fun cs =>
    if cs = "aa" then FileLoad.loaded ⟨420, [7], []⟩ else FileLoad.notFound
  remote_get_url := fun _ => some "u"
  remote_fetch := fun _ => FetchOutcome.parseFail }

theorem C3_remediation_witness :
    load_and_fsck_one_object envC3w "aa" ObjectKind.file (some ["r1"]) =
      ⟨none, !(repair_object envC3w ["r1"] "aa" ObjectKind.file).1,
        [Event.printErr "corrupted object aa.file; actual checksum: bb",
         Event.deleteObject "aa" ObjectKind.file] ++
          (repair_object envC3w ["r1"] "aa" ObjectKind.file).2⟩ ∧
    (load_and_fsck_one_object envC3w "mm" ObjectKind.file (some ["r1"]) =
      ⟨none, !(repair_object envC3w ["r1"] "mm" ObjectKind.file).1,
        [Event.printErr "Object missing: mm.file"] ++
          (repair_object envC3w ["r1"] "mm" ObjectKind.file).2⟩ ∧
      Event.deleteObject "mm" ObjectKind.file ∉
        [Event.printErr "Object missing: mm.file"]) := by
  constructor
  · exact (C3_remediation envC3w "aa" "bb" ObjectKind.file (some ["r1"])).1
      (LoadedContent.fileContent ⟨420, [7], []⟩) (by decide) (by decide) (by decide)
      (Or.inl (by decide))
  · exact (C3_remediation envC3w "mm" "bb" ObjectKind.file (some ["r1"])).2.1
      [Event.printErr "Object missing: mm.file"] (by decide)

/-- C4: repairing a metadata-kind object fails immediately with the
not-implemented diagnostic and contacts no remote, so a missing metadata
object always falls through to the corruption flag even with repair
remotes configured. -/
theorem C4_meta_repair_refused (env : Env) (rs : List String) (c : Checksum)
    (k : ObjectKind) (hmeta : k.isMeta = true) :
    repair_object env rs c k =
      (false,
        [Event.printErr ("repair of " ++ ostree_object_type_to_string k ++ " " ++ c ++
          " failed, not implenented")]) ∧
    attemptedRemotes (repair_object env rs c k).2 = [] ∧
    (∀ evs, fsckLoadPhase env c k = .missing evs →
      (load_and_fsck_one_object env c k (some rs)).corrupt = true ∧
      (load_and_fsck_one_object env c k (some rs)).err = none ∧
      attemptedRemotes (load_and_fsck_one_object env c k (some rs)).events = []) := by
  have hk : k ≠ ObjectKind.file := by
    intro hh
    rw [hh] at hmeta
    simp [ObjectKind.isMeta] at hmeta
  have h1 : repair_object env rs c k =
      (false,
        [Event.printErr ("repair of " ++ ostree_object_type_to_string k ++ " " ++ c ++
          " failed, not implenented")]) := by
    unfold repair_object
    rw [if_pos hk]
  refine ⟨h1, ?_, ?_⟩
  · rw [h1]
    simp [attemptedRemotes]
  · intro evs hmiss
    have h2 : load_and_fsck_one_object env c k (some rs) =
        ⟨none, true, evs ++ (repair_object env rs c k).2⟩ := by
      simp only [load_and_fsck_one_object, hmiss, fsckMissingTail]
      rw [h1]
      simp
    rw [h2]
    refine ⟨rfl, rfl, ?_⟩
    rw [fsckLoadPhase_missing_evs hmiss, h1]
    simp [attemptedRemotes]

/-- Store in which every metadata load reports not-found while the remote
r1 would succeed if it were ever contacted. -/
def envC4 : Env := { envC1 with
  repo_load_variant := fun _ _ => MetaLoad.notFound
  remote_get_url := fun _ => some "u"
  remote_fetch := fun _ => FetchOutcome.ok }

theorem C4_meta_repair_refused_witness :
    repair_object envC4 ["r1"] "cc" ObjectKind.commit =
      (false, [Event.printErr "repair of commit cc failed, not implenented"]) ∧
    (load_and_fsck_one_object envC4 "cc" ObjectKind.commit (some ["r1"])).corrupt = true ∧
    attemptedRemotes
      (load_and_fsck_one_object envC4 "cc" ObjectKind.commit (some ["r1"])).events = [] := by
  have h := C4_meta_repair_refused envC4 ["r1"] "cc" ObjectKind.commit (by decide)
  have h3 := h.2.2 [Event.printErr "Object missing: cc.commit"] (by decide)
  exact ⟨h.1, h3.1, h3.2.2⟩

/-- Store whose only remote r1 would succeed for any fetch. -/
def envC7 : Env := { envC1 with
  remote_get_url := fun _ => some "u"
  remote_fetch := fun _ => FetchOutcome.ok }

/-- C7 counterexample: for a commit-kind object and the single source r1,
whose fetch would succeed, repair_object reports failure having attempted
no source at all, refuting the claim read over every object kind. -/
theorem C7_counterexample :
    remoteSucceeds envC7 "r1" = true ∧
    (repair_object envC7 ["r1"] "aa" ObjectKind.commit).1 = false ∧
    attemptedRemotes (repair_object envC7 ["r1"] "aa" ObjectKind.commit).2 = [] := by
  decide

/-- C7 (amended to File-kind objects): without cancellation the repair
routine attempts the sources in the given order up to and including the
first succeeding one, returns success exactly when some source succeeds,
and returns failure after attempting every source when all fail; when the
run is cancelled (each send failing and the cancellation check firing) it
returns failure right after the first attempted source. -/
theorem C7_repair_order (env : Env) (c : Checksum) (rs : List String) :
    (env.cancelled = false →
      (repair_object env rs c ObjectKind.file).1 = rs.any (remoteSucceeds env) ∧
      attemptedRemotes (repair_object env rs c ObjectKind.file).2 =
        rs.takeWhile (fun x => !(remoteSucceeds env x)) ++
          (rs.dropWhile (fun x => !(remoteSucceeds env x))).take 1) ∧
    (env.cancelled = true →
      (∀ r ∈ rs, (env.remote_get_url r).isSome = true ∧
        env.remote_fetch r = FetchOutcome.sendFail) →
      (repair_object env rs c ObjectKind.file).1 = false ∧
      attemptedRemotes (repair_object env rs c ObjectKind.file).2 = rs.take 1) := by
  have hobj : repair_object env rs c ObjectKind.file = repair_loop env c ObjectKind.file rs := by
    unfold repair_object
    simp
  rw [hobj]
  exact ⟨fun hc => repair_loop_spec env c ObjectKind.file hc rs,
    fun hc hall => repair_loop_cancelled env c ObjectKind.file hc rs hall⟩

/-- Store with remotes where only r2 succeeds. -/
def envC7w : Env := { envC1 with
  remote_get_url := fun _ => some "u"
  remote_fetch := fun r => if r = "r2" then FetchOutcome.ok else FetchOutcome.parseFail }

theorem C7_repair_order_witness :
    (repair_object envC7w ["r1", "r2", "r3"] "aa" ObjectKind.file).1 =
      ["r1", "r2", "r3"].any (remoteSucceeds envC7w) ∧
    attemptedRemotes (repair_object envC7w ["r1", "r2", "r3"] "aa" ObjectKind.file).2 =
      ["r1", "r2", "r3"].takeWhile (fun x => !(remoteSucceeds envC7w x)) ++
        (["r1", "r2", "r3"].dropWhile (fun x => !(remoteSucceeds envC7w x))).take 1 :=
  (C7_repair_order envC7w "aa" ["r1", "r2", "r3"]).1 rfl

theorem count_one_of_nodup_mem {α : Type} [BEq α] [LawfulBEq α] {a : α} :
    ∀ {l : List α}, l.Nodup → a ∈ l → l.count a = 1 := by
  intro l
  induction l with
  | nil => intro _ h; cases h
  | cons b bs ih =>
    intro hnd hmem
    have hnd2 := List.nodup_cons.mp hnd
    rw [List.count_cons]
    rcases List.mem_cons.mp hmem with rfl | hm
    · rw [List.count_eq_zero.mpr hnd2.1]
      simp
    · have hba : (b == a) = false :=
        beq_eq_false_iff_ne.mpr fun hh => hnd2.1 (hh ▸ hm)
      rw [ih hnd2.2 hm, hba]
      simp

/-- The list of repair remotes denoted by a prepared option value. -/
def rrList : Except String (Option (List String)) → List String
  | .ok (some l) => l
  | _ => []

theorem strv_contains_ne_nil {l : List String} {s : String}
    (h : strv_contains l s = true) : l ≠ [] := by
  cases l with
  | nil => simp [strv_contains] at h
  | cons x rest => simp

/-- C8: a repair-remote option list containing the dash entry next to any
other entry makes prepare_repair_remotes fail, and the whole run returns
the error before any observable work; the singleton dash list succeeds and
denotes exactly the store's configured remote list. -/
theorem C8_dash_exclusive (env : Env) :
    (strv_contains env.opts.repairRemotes "-" = true →
      1 < env.opts.repairRemotes.length →
      prepare_repair_remotes env =
        .error
          "Either list repair remotes explicitly or use - (dash) to use all available remotes" ∧
      ostree_builtin_fsck env =
        ⟨false,
         some
           "Either list repair remotes explicitly or use - (dash) to use all available remotes",
         []⟩) ∧
    (env.opts.repairRemotes = ["-"] →
      prepare_repair_remotes env =
        .ok (if env.remote_list.isEmpty then none else some env.remote_list) ∧
      rrList (prepare_repair_remotes env) = env.remote_list) := by
  constructor
  · intro hc hlen
    have hne : env.opts.repairRemotes ≠ [] := strv_contains_ne_nil hc
    have hp : prepare_repair_remotes env =
        .error
          "Either list repair remotes explicitly or use - (dash) to use all available remotes" := by
      unfold prepare_repair_remotes
      rw [if_neg hne, if_pos hc, if_pos hlen]
    exact ⟨hp, by simp [ostree_builtin_fsck, hp]⟩
  · intro hr
    have hp : prepare_repair_remotes env =
        .ok (if env.remote_list.isEmpty then none else some env.remote_list) := by
      unfold prepare_repair_remotes
      rw [hr]
      simp [strv_contains]
    refine ⟨hp, ?_⟩
    rw [hp]
    cases hrl : env.remote_list with
    | nil => simp [rrList]
    | cons a l => simp [rrList]

/-- Store with two configured remotes and the dash option combined with a
named remote. -/
def envC8 : Env := { envC1 with
  opts := ⟨false, false, false, ["-", "r1"]⟩
  remote_list := ["ra", "rb"] }

/-- The same store with the dash as the only repair option. -/
def envC8b : Env := { envC8 with opts := ⟨false, false, false, ["-"]⟩ }

theorem C8_dash_exclusive_witness :
    (prepare_repair_remotes envC8 =
      .error
        "Either list repair remotes explicitly or use - (dash) to use all available remotes" ∧
     ostree_builtin_fsck envC8 =
      ⟨false,
       some
         "Either list repair remotes explicitly or use - (dash) to use all available remotes",
       []⟩) ∧
    rrList (prepare_repair_remotes envC8b) = ["ra", "rb"] := by
  constructor
  · exact (C8_dash_exclusive envC8).1 (by decide) (by decide)
  · exact ((C8_dash_exclusive envC8b).2 (by decide)).2

/-- Store with one complete commit c1 whose single reachable object
verifies cleanly, run with the quiet flag set. -/
def envC9 : Env := { envC1 with
  opts := ⟨true, false, false, []⟩
  repo_load_variant := fun cs k =>
    if cs = "c1" ∧ k = ObjectKind.commit then MetaLoad.loaded [1] else MetaLoad.ioError
  repo_load_commit := fun cs => if cs = "c1" then some ⟨none, false⟩ else none
  repo_list_objects := some [("c1", ObjectKind.commit)]
  traverse_commit_union := fun cs =>
    if cs = "c1" then some [("c1", ObjectKind.commit)] else none
  checksum_file_from_input := fun _ _ => some "c1" }

/-- C9: the verification loop's progress print is not guarded by opt_quiet:
with quiet set and one clean reachable object, the full run still emits the
1/1-objects progress line (the claim, like the quiet option's
only-error-messages help text, says it must not). -/
theorem C9_progress_printed_when_quiet :
    envC9.opts.quiet = true ∧
    Event.printOut "1/1 objects" ∈ (ostree_builtin_fsck envC9).events ∧
    (ostree_builtin_fsck envC9).ok = true := by
  decide

/-- C5: a PARTIAL-state commit in the listing is never put into the root
set handed to the walker and only bumps the partial counter; the reachable
set is drawn only from traversals of those roots, and every verification
event names a member of the reachable list, so a partial commit outside
every root traversal is never verified. -/
theorem C5_partial_commit_not_verified (env : Env) (objects : List ObjectId)
    (st : Census) (c : Checksum) (info : CommitInfo)
    (hload : env.repo_load_commit c = some info)
    (hpart : info.statePartial = true)
    (hcensus : censusLoop env census0 objects = .ok st) :
    c ∉ st.commits ∧
    st.nPartial = (objects.filter (fun o => isPartialEntry env o)).length ∧
    (∀ (acc reach : List ObjectId), buildReachable env st.commits acc = some reach →
      ∀ x ∈ reach, x ∈ acc ∨
        ∃ r ∈ st.commits, ∃ l, env.traverse_commit_union r = some l ∧ x ∈ l) ∧
    (∀ (rr : Option (List String)) (count m i : Nat) (fc : Bool) (reach : List ObjectId)
      (a : Checksum) (k : ObjectKind),
      Event.verifyObject a k ∈ (fsckLoop env rr count m i reach fc).2.2 → (a, k) ∈ reach) := by
  refine ⟨?_, ?_, ?_, ?_⟩
  · intro hmem
    rcases censusLoop_commits objects census0 st hcensus c hmem with h0 | ⟨info2, hl2, hp2⟩
    · simp [census0] at h0
    · rw [hload] at hl2
      injection hl2 with h3
      rw [← h3] at hp2
      rw [hpart] at hp2
      simp at hp2
  · have h := censusLoop_nPartial objects census0 st hcensus
    simpa [census0] using h
  · intro acc reach h x hx
    exact buildReachable_mem env st.commits acc reach h x hx
  · intro rr count m i fc reach a k h
    exact fsckLoop_verify_mem env rr count m reach i fc a k h

/-- Store listing a partial commit p1 and a complete commit c1. -/
def envC5 : Env := { envC9 with
  opts := ⟨false, false, false, []⟩
  repo_load_commit := fun cs =>
    if cs = "p1" then some ⟨none, true⟩
    else if cs = "c1" then some ⟨none, false⟩ else none
  repo_list_objects := some [("p1", ObjectKind.commit), ("c1", ObjectKind.commit)] }

theorem C5_partial_commit_not_verified_witness :
    "p1" ∉ (⟨["c1"], 1, []⟩ : Census).commits ∧
    (⟨["c1"], 1, []⟩ : Census).nPartial =
      ([("p1", ObjectKind.commit), ("c1", ObjectKind.commit)].filter
        (fun o => isPartialEntry envC5 o)).length := by
  have h := C5_partial_commit_not_verified envC5
    [("p1", ObjectKind.commit), ("c1", ObjectKind.commit)] ⟨["c1"], 1, []⟩ "p1"
    ⟨none, true⟩ (by decide) (by decide) (by rfl)
  exact ⟨h.1, h.2.1⟩

/-- C6: with tombstoning requested, the census stages exactly one tombstone
for a commit whose parent commit loads as not-found; the apply phase
enables the tombstone feature whenever requests are staged and deletes each
staged commit, a deletion failure being fatal; staged tombstones set no
corruption flag, so a run with no other corruption finishes successfully. -/
theorem C6_tombstones (env : Env) (htomb : env.opts.addTombstones = true) :
    (∀ (objects : List ObjectId) (st : Census) (c p : Checksum) (info : CommitInfo),
      env.repo_load_commit c = some info → info.parent = some p →
      env.repo_load_variant p ObjectKind.commit = MetaLoad.notFound →
      censusLoop env census0 objects = .ok st →
      objects.Nodup → (c, ObjectKind.commit) ∈ objects →
      st.tombstones.count c = 1) ∧
    (∀ (st : Census) (fc : Bool) (evs : List Event), st.tombstones ≠ [] →
      Event.enableTombstones ∈ (finishRun env st fc evs).events) ∧
    (∀ (st : Census) (evs : List Event), env.enable_tombstone_ok = true →
      (∀ t ∈ st.tombstones, env.delete_ok t ObjectKind.commit = true) →
      (finishRun env st false evs).ok = true ∧
      ∀ t ∈ st.tombstones,
        Event.deleteObject t ObjectKind.commit ∈ (finishRun env st false evs).events) ∧
    (∀ (st : Census) (fc : Bool) (evs : List Event) (l1 : List Checksum) (t : Checksum)
      (l2 : List Checksum),
      st.tombstones = l1 ++ t :: l2 →
      (∀ u ∈ l1, env.delete_ok u ObjectKind.commit = true) →
      env.delete_ok t ObjectKind.commit = false →
      env.enable_tombstone_ok = true →
      (finishRun env st fc evs).ok = false) := by
  refine ⟨?_, ?_, ?_, ?_⟩
  · intro objects st c p info hload hpar hnp hcensus hnd hmem
    have h := censusLoop_tombstones htomb hload hpar hnp objects census0 st hcensus
    rw [h]
    have hone : objects.count (c, ObjectKind.commit) = 1 :=
      count_one_of_nodup_mem hnd hmem
    simp [census0, hone]
  · intro st fc evs hne
    have hemp : st.tombstones.isEmpty = false := by
      cases hts : st.tombstones with
      | nil => exact absurd hts hne
      | cons a l => rfl
    by_cases hen : env.enable_tombstone_ok = true
    · cases hap : (applyTombstones env st.tombstones).2 with
      | some msg => simp [finishRun, htomb, hemp, hen, hap]
      | none =>
        have hres : finishRun env st fc evs =
            corruptionCheck fc ((evs ++ [Event.enableTombstones]) ++
              (applyTombstones env st.tombstones).1) := by
          simp [finishRun, htomb, hemp, hen, hap]
        rw [hres, corruptionCheck_events]
        simp
    · have hen2 : env.enable_tombstone_ok = false := by simpa using hen
      simp [finishRun, htomb, hemp, hen2]
  · intro st evs hen hall
    by_cases hemp : st.tombstones.isEmpty = true
    · have hnil : st.tombstones = [] := by simpa using hemp
      constructor
      · simp [finishRun, htomb, hemp, corruptionCheck]
      · intro t ht
        rw [hnil] at ht
        cases ht
    · have hempf : st.tombstones.isEmpty = false := by simpa using hemp
      have hap := applyTombstones_ok st.tombstones hall
      have hres : finishRun env st false evs =
          corruptionCheck false ((evs ++ [Event.enableTombstones]) ++
            (applyTombstones env st.tombstones).1) := by
        simp [finishRun, htomb, hempf, hen, hap.1]
      constructor
      · rw [hres]
        simp [corruptionCheck]
      · intro t ht
        rw [hres, corruptionCheck_events]
        simp only [List.mem_append]
        right
        exact hap.2 t ht
  · intro st fc evs l1 t l2 hts hok hbad hen
    have hemp : st.tombstones.isEmpty = false := by
      rw [hts]
      cases l1 <;> rfl
    have hfail := applyTombstones_fail l1 t l2 hok hbad
    rw [← hts] at hfail
    obtain ⟨msg, hmsg⟩ := Option.isSome_iff_exists.mp hfail
    simp [finishRun, htomb, hemp, hen, hmsg]

/-- Store with tombstoning on, one commit c1 whose parent p0 is absent. -/
def envC6 : Env := { envC1 with
  opts := ⟨false, false, true, []⟩
  repo_load_variant := fun cs k =>
    if cs = "p0" ∧ k = ObjectKind.commit then MetaLoad.notFound else MetaLoad.ioError
  repo_load_commit := fun cs => if cs = "c1" then some ⟨some "p0", false⟩ else none }

theorem C6_tombstones_witness :
    (⟨["c1"], 0, ["c1"]⟩ : Census).tombstones.count "c1" = 1 ∧
    (finishRun envC6 ⟨["c1"], 0, ["c1"]⟩ false []).ok = true ∧
    Event.enableTombstones ∈ (finishRun envC6 ⟨["c1"], 0, ["c1"]⟩ false []).events := by
  have h := C6_tombstones envC6 (by decide)
  refine ⟨?_, ?_, ?_⟩
  · exact h.1 [("c1", ObjectKind.commit)] ⟨["c1"], 0, ["c1"]⟩ "c1" "p0" ⟨some "p0", false⟩
      (by decide) (by decide) (by decide) (by rfl) (by decide) (by decide)
  · exact (h.2.2.1 ⟨["c1"], 0, ["c1"]⟩ [] (by decide) (fun t ht => rfl)).1
  · exact h.2.1 ⟨["c1"], 0, ["c1"]⟩ false [] (by decide)
